import Mathlib

/-!
Verification of the MCP-files-teams conversational-memory subsystem.

The definitions below are a shallow embedding of `src/memory-extension.ts`
(class `ChromaMemoryManager`), `src/lib/request-context.ts` and the
`ChromaRest` client.  File-system state is modelled explicitly as
association lists (directory listings and file contents), the remote
vector backend as a list of stored entries plus a behaviour flag, and
JavaScript's falsy-`||` chains by `jsTruthy`/`jsChain`.
-/

namespace MCP

/-- JavaScript truthiness on optional strings: the empty string is falsy,
so `a || b` skips both `null`/`undefined` and `""`. -/
def jsTruthy : Option String → Option String
  | some s => if s = "" then none else some s
  | none => none

/-- `x1 || x2 || ... || d` for a JS chain of optional strings ending in a
non-empty literal default. -/
def jsChain : List (Option String) → String → String
  | [], d => d
  | x :: rest, d =>
    match jsTruthy x with
    | some s => s
    | none => jsChain rest d

/-- Lower-casing, as JS `toLowerCase` on the ASCII range. -/
def lowerStr (s : String) : String := String.mk (s.toList.map Char.toLower)

/-- JS `hay.includes(needle)`: substring containment. -/
def strContains (hay needle : String) : Bool :=
  decide (needle.toList <:+: hay.toList)

/-- One path-segment join, as `path.join(a, b)` for simple segments. -/
def pjoin (a b : String) : String := a ++ "/" ++ b

/-- The character class kept by the user-directory sanitiser
(`replace(/[^a-zA-Z0-9._-]/g, '_')`). -/
def safeChar (c : Char) : Bool :=
  c.isAlphanum || c = '.' || c = '_' || c = '-'

/-- `userId.replace(/[^a-zA-Z0-9._-]/g, '_')` from `storeConversationToJson`. -/
def sanitize (s : String) : String :=
  String.mk (s.toList.map (fun c => if safeChar c then c else '_'))

/-- Strip `pat` as a prefix of `s`, returning the remainder. -/
def stripPrefixChars : List Char → List Char → Option (List Char)
  | [], s => some s
  | _ :: _, [] => none
  | p :: ps, c :: cs => if p = c then stripPrefixChars ps cs else none

/-- Replace the first occurrence of `pat` (non-empty) in a character list. -/
def replFirstAux (pat repl : List Char) : List Char → List Char
  | [] => []
  | c :: cs =>
    match stripPrefixChars pat (c :: cs) with
    | some rest => repl ++ rest
    | none => c :: replFirstAux pat repl cs

/-- JS `String.replace(pat, repl)` with a plain-string pattern: replaces only
the FIRST occurrence (used by `listSessions` via `file.replace('.json','')`). -/
def replaceFirst (s pat repl : String) : String :=
  String.mk (replFirstAux pat.toList repl.toList s.toList)

/-- JS `s.endsWith(suffix)`. -/
def endsWithStr (s suffix : String) : Bool :=
  decide (suffix.toList <:+ s.toList)

/-- The `ConversationMemory` record (`memory-extension.ts`).  Optional TS
fields are `Option`; `visibility` is one of the strings
`"private" | "team" | "public"` when present. -/
structure ConversationMemory where
  sessionId : String
  timestamp : Nat
  userMessage : String
  assistantResponse : String
  context : List String
  tags : List String
  source : Option String := none
  userId : Option String := none
  teamId : Option String := none
  visibility : Option String := none
  projectId : Option String := none
  domain : Option String := none
  deriving Repr, DecidableEq

/-- Flattened metadata object sent to the vector backend (`collection.add`).
`context`/`tags` are the comma-joined strings; the ownership fields are
`Option` because `reloadAllMemoriesFromJson` omits them entirely. -/
structure VecMetadata where
  sessionId : String
  timestamp : Nat
  userMessage : String
  assistantResponse : String
  context : String
  tags : String
  userId : Option String := none
  teamId : Option String := none
  visibility : Option String := none
  projectId : Option String := none
  domain : Option String := none
  deriving Repr, DecidableEq

/-- Metadata attached to a `MemorySearchResult`: either the full vector-side
metadata (vector path) or the small object built by `searchJsonMemories`. -/
inductive ResultMeta where
  | vec (m : VecMetadata)
  | json (sessionId : String) (timestamp : Nat) (tags : List String)
      (context : List String)
  deriving Repr, DecidableEq

/-- `metadata.sessionId` as read by `buildContextPrompt`. -/
def ResultMeta.sid : ResultMeta → String
  | .vec m => m.sessionId
  | .json s _ _ _ => s

/-- `metadata.visibility` (fields absent on the JSON-path object read as
`undefined`). -/
def ResultMeta.vis : ResultMeta → Option String
  | .vec m => m.visibility
  | .json _ _ _ _ => none

/-- `MemorySearchResult` (`memory-extension.ts`). -/
structure MemorySearchResult where
  content : String
  metadata : ResultMeta
  distance : ℚ
  deriving Repr, DecidableEq

/-- Content of one on-disk session file: a parseable JSON array of records,
or bytes that `JSON.parse` rejects. -/
inductive FileData where
  | corrupt
  | records (rs : List ConversationMemory)
  deriving Repr, DecidableEq

/-- File-system state: directory listings (in `readdir` order), file
contents, and the set of paths on which `fs.writeFile` fails with an I/O
error. -/
structure FS where
  dirs : List (String × List String)
  files : List (String × FileData)
  failWrites : List String
  deriving Repr, DecidableEq

/-- Association-list lookup keyed by path. -/
def lookupA {α : Type} (xs : List (String × α)) (k : String) : Option α :=
  (xs.find? (fun p => p.1 = k)).map (·.2)

/-- Association-list update/insert keyed by path. -/
def setA {α : Type} : List (String × α) → String → α → List (String × α)
  | [], k, v => [(k, v)]
  | (k', v') :: rest, k, v =>
    if k' = k then (k, v) :: rest else (k', v') :: setA rest k v

/-- Association-list removal keyed by path. -/
def removeA {α : Type} (xs : List (String × α)) (k : String) :
    List (String × α) :=
  xs.filter (fun p => p.1 ≠ k)

/-- `fs.mkdir(dir, {recursive:true})`: ensure the directory exists. -/
def FS.mkdirp (fs : FS) (dir : String) : FS :=
  match lookupA fs.dirs dir with
  | some _ => fs
  | none => { fs with dirs := setA fs.dirs dir [] }

/-- Record `name` in `dir`'s listing (a successful `writeFile` makes the
file visible to a later `readdir`). -/
def FS.addDirEntry (fs : FS) (dir name : String) : FS :=
  let cur := (lookupA fs.dirs dir).getD []
  { fs with dirs := setA fs.dirs dir (if name ∈ cur then cur else cur ++ [name]) }

/-- Write `data` at `path` inside `dir` (listing updated). -/
def FS.writeAt (fs : FS) (dir name : String) (data : FileData) : FS :=
  let fs1 := fs.addDirEntry dir name
  { fs1 with files := setA fs1.files (pjoin dir name) data }

/-- `fs.unlink(path)` together with removing the name from its directory
listing; the caller checks existence separately. -/
def FS.unlink (fs : FS) (dir name : String) : FS :=
  { fs with
    files := removeA fs.files (pjoin dir name)
    dirs :=
      match lookupA fs.dirs dir with
      | none => fs.dirs
      | some cur => setA fs.dirs dir (cur.filter (· ≠ name)) }

/-- The records a read of `path` yields inside `searchJsonMemories` /
`storeConversationToJson`: a missing file (read throws) or a corrupt file
(parse throws) contributes the empty sequence. -/
def readableRecords (fs : FS) (path : String) : List ConversationMemory :=
  match lookupA fs.files path with
  | some (.records rs) => rs
  | _ => []

/-- The environment variables the memory subsystem consults
(`process.env.*`; a set variable may still be the empty string). -/
structure Env where
  mcpUserId : Option String := none
  mcpTeamId : Option String := none
  mcpDisableJson : Option String := none
  mcpPrivateJsonOnly : Option String := none
  mcpProjectId : Option String := none
  deriving Repr, DecidableEq

/-- `RequestContext` (`src/lib/request-context.ts`): process-wide current
identity; `set` coerces falsy values to `null`, so a stored value is a
non-empty string or absent. -/
structure RequestCtx where
  userId : Option String := none
  teamId : Option String := none
  deriving Repr, DecidableEq

/-- `RequestContext.set(userId, teamId)`: `userId || null` / `teamId || null`. -/
def RequestCtx.set (u t : Option String) : RequestCtx :=
  { userId := jsTruthy u, teamId := jsTruthy t }

/-- `RequestContext.clear()`. -/
def RequestCtx.clear : RequestCtx := {}

/-- Post-constructor manager state: whether `this.client` / `this.collection`
are non-null and whether `initialize()` has completed. -/
structure ManagerState where
  client : Bool
  collection : Bool
  initDone : Bool
  deriving Repr, DecidableEq

/-- Environment outcomes driving `initialize()`: did the `ChromaClient`
constructor succeed, did `mkdir` succeed, did `getCollection` /
`createCollection` succeed.  Each failing step throws in the source; every
throw is caught inside `initialize`, so the embedding is a total function. -/
structure InitOutcome where
  clientOk : Bool
  mkdirOk : Bool
  getCollectionOk : Bool
  createCollectionOk : Bool
  deriving Repr, DecidableEq

/-- `ChromaMemoryManager.initialize()` as a state transformer (the
`memoryDir` `mkdir` side effect is not needed by any claim).  The outer
`try/catch` converts every failure into JSON-only degraded mode with
`client = collection = null` and `initialized = true`; nothing escapes to
the caller. -/
def initializeManager (o : InitOutcome) : ManagerState :=
  if o.mkdirOk then
    if o.clientOk then
      if o.getCollectionOk then
        { client := true, collection := true, initDone := true }
      else if o.createCollectionOk then
        { client := true, collection := true, initDone := true }
      else
        { client := false, collection := false, initDone := true }
    else
      { client := false, collection := false, initDone := true }
  else
    { client := false, collection := false, initDone := true }

/-- One entry stored in the remote vector collection. -/
structure ChromaEntry where
  id : String
  document : String
  metadata : VecMetadata
  deriving Repr, DecidableEq

/-- Remote vector collection state: stored entries, plus whether the next
`add` call throws (network failure). -/
structure ChromaState where
  entries : List ChromaEntry
  addThrows : Bool := false
  deriving Repr, DecidableEq

/-- `collection.add(...)`: append the entry unless the call throws (the
backend accepts duplicate ids). -/
def ChromaState.add (ch : ChromaState) (e : ChromaEntry) : ChromaState :=
  if ch.addThrows then ch else { ch with entries := ch.entries ++ [e] }

/-- The `where` object built by `searchRelevantMemories`:
`sessionId` equality if the argument is truthy, `teamId` equality if
`process.env.MCP_TEAM_ID` is truthy, and always
`visibility: {"$in": ["team", "public"]}`. -/
structure WhereFilter where
  sessionId : Option String
  teamId : Option String
  visibilityIn : List String
  deriving Repr, DecidableEq

/-- Filter construction from `searchRelevantMemories` (lines 214-220). -/
def buildWhere (sessionId : Option String) (env : Env) : WhereFilter :=
  { sessionId := jsTruthy sessionId
    teamId := jsTruthy env.mcpTeamId
    visibilityIn := ["team", "public"] }

/-- Chroma `where`-filter semantics on one metadata object: equality clauses
must match exactly, and a `$in` clause requires the field to be PRESENT with
a value in the list (a record missing the field never matches). -/
def matchesWhere (w : WhereFilter) (m : VecMetadata) : Bool :=
  (match w.sessionId with
   | none => true
   | some s => m.sessionId = s) &&
  (match w.teamId with
   | none => true
   | some t => m.teamId = some t) &&
  (match m.visibility with
   | none => false
   | some v => w.visibilityIn.contains v)

/-- Effective user id at write time
(`rcUser || process.env.MCP_USER_ID || memory.userId || 'unknown-user'`,
`storeConversation` line 122). -/
def resolveUserId (env : Env) (rc : RequestCtx) (mem : ConversationMemory) :
    String :=
  jsChain [rc.userId, env.mcpUserId, mem.userId] "unknown-user"

/-- Effective team id at write time
(`rcTeam || process.env.MCP_TEAM_ID || memory.teamId || 'default-team'`). -/
def resolveTeamId (env : Env) (rc : RequestCtx) (mem : ConversationMemory) :
    String :=
  jsChain [rc.teamId, env.mcpTeamId, mem.teamId] "default-team"

/-- `memory.visibility || 'team'`. -/
def resolveVisibility (mem : ConversationMemory) : String :=
  jsChain [mem.visibility] "team"

/-- The sanitised user-directory segment `storeConversationToJson` computes:
`(memory.userId || rcUser || process.env.MCP_USER_ID || 'unknown-user')`
then the unsafe-character replacement. -/
def jsonUserSafe (env : Env) (rc : RequestCtx) (mem : ConversationMemory) :
    String :=
  sanitize (jsChain [mem.userId, rc.userId, env.mcpUserId] "unknown-user")

/-- Absolute path of the session file `storeConversationToJson` writes. -/
def jsonSessionPath (md : String) (env : Env) (rc : RequestCtx)
    (mem : ConversationMemory) : String :=
  pjoin (pjoin md (jsonUserSafe env rc mem)) (mem.sessionId ++ ".json")

/-- `ChromaMemoryManager.storeConversationToJson` (lines 180-205): make the
per-user directory, read the existing array (missing/corrupt file reads as
empty), push the record and rewrite the file.  Only a failing `writeFile`
reaches the outer catch and yields `false`; the function never throws. -/
def storeConversationToJson (md : String) (env : Env) (rc : RequestCtx)
    (fs : FS) (mem : ConversationMemory) : Bool × FS :=
  let userDir := pjoin md (jsonUserSafe env rc mem)
  let fs1 := fs.mkdirp userDir
  let name := mem.sessionId ++ ".json"
  let sessionFile := pjoin userDir name
  let existing := readableRecords fs1 sessionFile
  if sessionFile ∈ fs.failWrites then
    (false, fs1)
  else
    (true, fs1.writeAt userDir name (.records (existing ++ [mem])))

/-- `process.env.MCP_DISABLE_JSON` check (line 126). -/
def disableJson (env : Env) : Bool :=
  lowerStr ((env.mcpDisableJson).getD "") = "true" || env.mcpDisableJson = some "1"

/-- `(process.env.MCP_PRIVATE_JSON_ONLY || '1') === '1'` (line 127). -/
def jsonOnlyPrivate (env : Env) : Bool :=
  (env.mcpPrivateJsonOnly).getD "1" = "1"

/-- `x1 || x2 || undefined` for optional strings. -/
def jsChainOpt : List (Option String) → Option String
  | [] => none
  | x :: rest =>
    match jsTruthy x with
    | some s => some s
    | none => jsChainOpt rest

/-- Metadata object `storeConversation` sends to `collection.add`
(lines 157-169). -/
def storeMetadata (env : Env) (rc : RequestCtx) (mem : ConversationMemory) :
    VecMetadata :=
  { sessionId := mem.sessionId
    timestamp := mem.timestamp
    userMessage := mem.userMessage
    assistantResponse := mem.assistantResponse
    context := String.intercalate ", " mem.context
    tags := String.intercalate ", " mem.tags
    userId := some (resolveUserId env rc mem)
    teamId := some (resolveTeamId env rc mem)
    visibility := some (resolveVisibility mem)
    projectId := jsChainOpt [mem.projectId, env.mcpProjectId]
    domain := jsTruthy mem.domain }

/-- `ChromaMemoryManager.storeConversation` (lines 114-178), after
`initialize()` has completed.  Returns the boolean result together with the
updated file-system and vector-collection states.  Note that the result of
the JSON append is DISCARDED by the source (line 131 does not inspect it),
and every branch — including a throwing `collection.add` — returns `true`. -/
def storeConversation (md : String) (env : Env) (rc : RequestCtx)
    (st : ManagerState) (ch : ChromaState) (fs : FS)
    (mem : ConversationMemory) : Bool × FS × ChromaState :=
  let userId := resolveUserId env rc mem
  let teamId := resolveTeamId env rc mem
  let visibility := resolveVisibility mem
  let mem' := { mem with
    userId := some userId, teamId := some teamId,
    visibility := some visibility }
  let fs' := if disableJson env then fs
    else (storeConversationToJson md env rc fs mem').2
  if visibility = "private" && jsonOnlyPrivate env then
    (true, fs', ch)
  else if !(st.client && st.collection) then
    (true, fs', ch)
  else
    let id := mem.sessionId ++ "_" ++ toString mem.timestamp
    let document :=
      "User: " ++ mem.userMessage ++ "\nAssistant: " ++ mem.assistantResponse
    (true, fs', ch.add
      { id := id, document := document,
        metadata := storeMetadata env rc mem })

/-- The text `searchJsonMemories` matches against:
`(userMessage + " " + assistantResponse + " " + tags.join(" ")).toLowerCase()`. -/
def searchText (mem : ConversationMemory) : String :=
  lowerStr (mem.userMessage ++ " " ++ mem.assistantResponse ++ " " ++
    String.intercalate " " mem.tags)

/-- `searchText.includes(queryLower)` for one record. -/
def recordMatchesKeyword (queryLower : String) (mem : ConversationMemory) :
    Bool :=
  strContains (searchText mem) queryLower

/-- The result object pushed for one keyword hit (lines 284-293). -/
def mkJsonResult (mem : ConversationMemory) : MemorySearchResult :=
  { content :=
      "User: " ++ mem.userMessage ++ "\nAssistant: " ++ mem.assistantResponse
    metadata := .json mem.sessionId mem.timestamp mem.tags mem.context
    distance := (1 : ℚ) / 2 }

/-- Inner loop of `searchJsonMemories` over one parsed file: push a result
for every record whose search text contains the query. -/
def collectFileResults (queryLower : String) :
    List ConversationMemory → List MemorySearchResult
  | [] => []
  | m :: rest =>
    (if recordMatchesKeyword queryLower m then [mkJsonResult m] else []) ++
      collectFileResults queryLower rest

/-- Outer loop of `searchJsonMemories` over the file names: skip non-`.json`
names, skip unreadable/corrupt files, accumulate hits in scan order. -/
def scanLoop (fs : FS) (userDir queryLower : String) :
    List String → List MemorySearchResult
  | [] => []
  | f :: rest =>
    (if endsWithStr f ".json" then
        collectFileResults queryLower (readableRecords fs (pjoin userDir f))
      else []) ++ scanLoop fs userDir queryLower rest

/-- The user id `searchJsonMemories` / `listSessions` resolve
(`RequestContext.userId() || process.env.MCP_USER_ID || 'unknown-user'`);
note: NOT sanitised, unlike the write path. -/
def readUserId (env : Env) (rc : RequestCtx) : String :=
  jsChain [rc.userId, env.mcpUserId] "unknown-user"

/-- The file names `searchJsonMemories` iterates over: the single named
session file when `sessionId` is truthy, else the user directory listing;
`none` when the user directory is absent (`fs.access` throws → return []). -/
def sessionFilesList (fs : FS) (userDir : String) (sessionId : Option String) :
    Option (List String) :=
  match lookupA fs.dirs userDir with
  | none => none
  | some entries =>
    some (match jsTruthy sessionId with
      | some s => [s ++ ".json"]
      | none => entries)

/-- `ChromaMemoryManager.searchJsonMemories` (lines 260-307). -/
def searchJsonMemories (md : String) (env : Env) (rc : RequestCtx) (fs : FS)
    (query : String) (sessionId : Option String) (limit : Nat) :
    List MemorySearchResult :=
  let queryLower := lowerStr query
  let userDir := pjoin md (readUserId env rc)
  match sessionFilesList fs userDir sessionId with
  | none => []
  | some files => (scanLoop fs userDir queryLower files).take limit

/-- One ranked row of a backend query response
(`documents[0][i]`, `metadatas[0][i]`, `distances[0][i]`). -/
structure QueryRow where
  document : String
  metadata : VecMetadata
  distance : ℚ
  deriving Repr, DecidableEq

/-- Behaviour of the one `collection.query` call a search issues: the call
throws (network/parse error), or returns its ranked rows. -/
inductive QueryBehavior where
  | throws
  | returns (rows : List QueryRow)
  deriving Repr, DecidableEq

/-- Mapping of one backend row to a `MemorySearchResult` (lines 238-242). -/
def mkVecResult (r : QueryRow) : MemorySearchResult :=
  { content := r.document, metadata := .vec r.metadata,
    distance := r.distance }

/-- `ChromaMemoryManager.searchRelevantMemories` (lines 207-258), with the
backend's response to the issued query supplied as `beh`.  The vector path
runs only when both `client` and `collection` are non-null; a throwing or
empty query falls back to the JSON keyword scan. -/
def searchRelevantMemories (md : String) (env : Env) (rc : RequestCtx)
    (fs : FS) (st : ManagerState) (beh : QueryBehavior) (query : String)
    (sessionId : Option String) (limit : Nat) : List MemorySearchResult :=
  if st.client && st.collection then
    match beh with
    | .throws => searchJsonMemories md env rc fs query sessionId limit
    | .returns rows =>
      if rows.isEmpty then
        searchJsonMemories md env rc fs query sessionId limit
      else
        rows.map mkVecResult
  else
    searchJsonMemories md env rc fs query sessionId limit

/-- `ChromaMemoryManager.listSessions` (lines 309-321): list the active
user's directory, keep `.json` names, strip the first `".json"`
occurrence; any error (e.g. missing directory) yields `[]`. -/
def listSessions (md : String) (env : Env) (rc : RequestCtx) (fs : FS) :
    List String :=
  let userDir := pjoin md (readUserId env rc)
  match lookupA fs.dirs userDir with
  | none => []
  | some entries =>
    (entries.filter (fun f => endsWithStr f ".json")).map
      (fun f => replaceFirst f ".json" "")

/-- `ChromaMemoryManager.deleteSession` (lines 389-401): unlink
`<memoryDir>/<sessionId>.json` — note: directly under the memory root, NOT
under the active user's directory.  A missing file makes `unlink` throw,
which the catch turns into `false`. -/
def deleteSession (md : String) (fs : FS) (sessionId : String) : Bool × FS :=
  let name := sessionId ++ ".json"
  match lookupA fs.files (pjoin md name) with
  | none => (false, fs)
  | some _ => (true, fs.unlink md name)

/-- The fixed header `buildContextPrompt` starts from (line 370). -/
def contextHeader : String :=
  "## Relevant Context from Previous Conversations:\n\n"

/-- The block appended for one search result (line 374):
`"### " + (metadata.sessionId || 'Session') + "\n" + content + "\n\n"`. -/
def promptBlock (r : MemorySearchResult) : String :=
  "### " ++ (jsTruthy (some r.metadata.sid)).getD "Session" ++ "\n" ++
    r.content ++ "\n\n"

/-- The appending loop of `buildContextPrompt` (lines 373-380): stop at the
first block that would push the length past `maxLength`. -/
def promptLoop (maxLength : Nat) :
    List MemorySearchResult → String → Nat → String
  | [], ctx, _ => ctx
  | r :: rest, ctx, curLen =>
    if curLen + (promptBlock r).length > maxLength then ctx
    else promptLoop maxLength rest (ctx ++ promptBlock r)
      (curLen + (promptBlock r).length)

/-- `ChromaMemoryManager.buildContextPrompt` (lines 362-387): at most 3
results from the orchestrator, empty string when there are none. -/
def buildContextPrompt (md : String) (env : Env) (rc : RequestCtx) (fs : FS)
    (st : ManagerState) (beh : QueryBehavior) (currentMessage : String)
    (sessionId : Option String) (maxLength : Nat) : String :=
  let relevantMemories :=
    searchRelevantMemories md env rc fs st beh currentMessage sessionId 3
  if relevantMemories.isEmpty then ""
  else promptLoop maxLength relevantMemories contextHeader contextHeader.length

/-- Metadata object `reloadAllMemoriesFromJson` sends to `collection.add`
(lines 438-445): only the six content fields — no `userId`, `teamId`,
`visibility`, `projectId` or `domain`. -/
def reloadMetadata (mem : ConversationMemory) : VecMetadata :=
  { sessionId := mem.sessionId
    timestamp := mem.timestamp
    userMessage := mem.userMessage
    assistantResponse := mem.assistantResponse
    context := String.intercalate ", " mem.context
    tags := String.intercalate ", " mem.tags }

/-- `ChromaRest.ensureCollection` (chroma-rest client): POST the collection
name; every status other than 200/201/409 raises. -/
def ensureCollection (status : Nat) : Except String Unit :=
  if status ∈ [200, 201, 409] then Except.ok ()
  else Except.error ("ensureCollection failed: " ++ toString status)

/-- Whether an `Except` completed without raising. -/
def exceptOk {ε α : Type} : Except ε α → Bool
  | .ok _ => true
  | .error _ => false

/-- Declarative form of the fallback scan, for the spec's words: the
in-order sequence of records of the active user's scanned session files
(one named session if given, else all). -/
def scannedRecords (md : String) (env : Env) (rc : RequestCtx) (fs : FS)
    (sessionId : Option String) : List ConversationMemory :=
  let userDir := pjoin md (readUserId env rc)
  match sessionFilesList fs userDir sessionId with
  | none => []
  | some files =>
    files.flatMap (fun f =>
      if endsWithStr f ".json" then readableRecords fs (pjoin userDir f)
      else [])

/-- The record `storeConversation` actually persists: the argument enriched
with the resolved `userId`/`teamId`/`visibility`. -/
def storedRecord (env : Env) (rc : RequestCtx) (mem : ConversationMemory) :
    ConversationMemory :=
  { mem with
    userId := some (resolveUserId env rc mem)
    teamId := some (resolveTeamId env rc mem)
    visibility := some (resolveVisibility mem) }

/-- Concrete vector row carrying team visibility, for witnesses. -/
def rowTeam : QueryRow :=
  { document := "User: fix nginx config\nAssistant: edit nginx.conf"
    metadata :=
      { sessionId := "s1", timestamp := 1, userMessage := "fix nginx config"
        assistantResponse := "edit nginx.conf", context := "", tags := ""
        userId := some "alice", teamId := some "default-team"
        visibility := some "team" }
    distance := 0 }

/-- Concrete record whose user message contains "docker", for witnesses. -/
def recDocker : ConversationMemory :=
  { sessionId := "s1", timestamp := 7
    userMessage := "set up a Docker registry"
    assistantResponse := "use podman"
    context := [], tags := ["deployment"]
    userId := some "alice", teamId := some "default-team"
    visibility := some "team" }

/-- Concrete file-system state holding `recDocker` under user `alice`. -/
def fsDocker : FS :=
  { dirs := [("mem", ["alice"]), ("mem/alice", ["s1.json"])]
    files := [("mem/alice/s1.json", .records [recDocker])]
    failWrites := [] }

/-- Environment whose active user is `alice`. -/
def envAlice : Env := { mcpUserId := some "alice" }

/-- Concrete record for the write-failure scenario. -/
def recNginx : ConversationMemory :=
  { sessionId := "s1", timestamp := 1
    userMessage := "fix nginx config"
    assistantResponse := "edit /etc/nginx/nginx.conf"
    context := [], tags := ["configuration"] }

/-- File-system state in which the durable write of `recNginx`'s enriched
session file fails with a disk I/O error. -/
def fsFailWrite : FS :=
  { dirs := [], files := []
    failWrites := ["m/unknown-user/s1.json"] }

end MCP

namespace MCP

theorem collectFileResults_eq (q : String) (rs : List ConversationMemory) :
    collectFileResults q rs =
      (rs.filter (recordMatchesKeyword q)).map mkJsonResult := by
  induction rs with
  | nil => rfl
  | cons m rest ih =>
    by_cases h : recordMatchesKeyword q m = true
    · simp [collectFileResults, h, ih]
    · simp [collectFileResults, h, ih, List.filter_cons]

theorem scanLoop_eq (fs : FS) (dir q : String) (files : List String) :
    scanLoop fs dir q files =
      ((files.flatMap (fun f =>
          if endsWithStr f ".json" then readableRecords fs (pjoin dir f)
          else [])).filter (recordMatchesKeyword q)).map mkJsonResult := by
  induction files with
  | nil => rfl
  | cons f rest ih =>
    by_cases h : endsWithStr f ".json" = true
    · simp [scanLoop, h, ih, collectFileResults_eq, List.filter_append]
    · simp [scanLoop, h, ih]

/-- `searchJsonMemories` is exactly: filter the scanned records by the
lower-cased keyword test, map each hit to its result object, truncate. -/
theorem searchJsonMemories_eq_spec (md : String) (env : Env)
    (rc : RequestCtx) (fs : FS) (query : String) (sessionId : Option String)
    (limit : Nat) :
    searchJsonMemories md env rc fs query sessionId limit =
      (((scannedRecords md env rc fs sessionId).filter
          (recordMatchesKeyword (lowerStr query))).map mkJsonResult).take
        limit := by
  unfold searchJsonMemories scannedRecords
  cases h : sessionFilesList fs (pjoin md (readUserId env rc)) sessionId with
  | none => simp [h]
  | some files => simp [h, scanLoop_eq]

theorem jsonResult_vis_none (mem : ConversationMemory) :
    (mkJsonResult mem).metadata.vis = none := rfl

/-- Every result the JSON fallback produces carries the `.json` metadata
shape, hence no `visibility` field. -/
theorem searchJsonMemories_vis_none (md : String) (env : Env)
    (rc : RequestCtx) (fs : FS) (query : String) (sessionId : Option String)
    (limit : Nat) (r : MemorySearchResult)
    (hr : r ∈ searchJsonMemories md env rc fs query sessionId limit) :
    r.metadata.vis = none := by
  rw [searchJsonMemories_eq_spec] at hr
  have := List.mem_of_mem_take hr
  rcases List.mem_map.mp this with ⟨m, _, rfl⟩
  rfl

/-- Every result the JSON fallback produces has the fixed placeholder
distance 0.5. -/
theorem searchJsonMemories_distance (md : String) (env : Env)
    (rc : RequestCtx) (fs : FS) (query : String) (sessionId : Option String)
    (limit : Nat) (r : MemorySearchResult)
    (hr : r ∈ searchJsonMemories md env rc fs query sessionId limit) :
    r.distance = (1 : ℚ) / 2 := by
  rw [searchJsonMemories_eq_spec] at hr
  have := List.mem_of_mem_take hr
  rcases List.mem_map.mp this with ⟨m, _, rfl⟩
  rfl

/-- In each of the three degraded situations the search operation runs the
JSON keyword fallback. -/
theorem searchRelevantMemories_fallback (md : String) (env : Env)
    (rc : RequestCtx) (fs : FS) (st : ManagerState) (beh : QueryBehavior)
    (query : String) (sessionId : Option String) (limit : Nat)
    (h : (st.client && st.collection) = false ∨ beh = .throws ∨
      beh = .returns []) :
    searchRelevantMemories md env rc fs st beh query sessionId limit =
      searchJsonMemories md env rc fs query sessionId limit := by
  unfold searchRelevantMemories
  rcases h with h | h | h
  · simp [h]
  · subst h
    split <;> rfl
  · subst h
    split <;> simp

/-- `storeConversation` returns `true` on EVERY control path: the JSON
append result is discarded and a throwing `collection.add` is swallowed. -/
theorem storeConversation_fst (md : String) (env : Env) (rc : RequestCtx)
    (st : ManagerState) (ch : ChromaState) (fs : FS)
    (mem : ConversationMemory) :
    (storeConversation md env rc st ch fs mem).1 = true := by
  simp only [storeConversation]
  split_ifs <;> rfl

theorem lookupA_setA_self {α : Type} (xs : List (String × α)) (k : String)
    (v : α) : lookupA (setA xs k v) k = some v := by
  induction xs with
  | nil => simp [setA, lookupA]
  | cons p rest ih =>
    by_cases h : p.1 = k
    · simp [setA, h, lookupA]
    · simp [setA, h, lookupA, List.find?] at *
      simp [h, ih]

theorem mkdirp_files (fs : FS) (d : String) :
    (fs.mkdirp d).files = fs.files := by
  unfold FS.mkdirp
  split <;> rfl

theorem mkdirp_failWrites (fs : FS) (d : String) :
    (fs.mkdirp d).failWrites = fs.failWrites := by
  unfold FS.mkdirp
  split <;> rfl

theorem readableRecords_mkdirp (fs : FS) (d p : String) :
    readableRecords (fs.mkdirp d) p = readableRecords fs p := by
  unfold readableRecords
  rw [mkdirp_files]

/-- After `writeAt dir name data`, the directory listing of `dir` exists. -/
theorem writeAt_dir_exists (fs : FS) (dir name : String) (data : FileData) :
    ∃ entries, lookupA ((fs.writeAt dir name data)).dirs dir = some entries := by
  unfold FS.writeAt FS.addDirEntry
  exact ⟨_, lookupA_setA_self _ _ _⟩

/-- After `writeAt dir name data`, reading `pjoin dir name` yields `data`. -/
theorem writeAt_read (fs : FS) (dir name : String) (data : FileData) :
    lookupA ((fs.writeAt dir name data)).files (pjoin dir name) = some data := by
  unfold FS.writeAt FS.addDirEntry
  exact lookupA_setA_self _ _ _

/-- A string append ends with its second component. -/
theorem endsWithStr_append (s t : String) : endsWithStr (s ++ t) t = true := by
  unfold endsWithStr
  rw [decide_eq_true_iff]
  show t.data <:+ (s ++ t).data
  rw [String.data_append]
  exact List.suffix_append s.data t.data

/-- The `promptLoop` never grows the context past `maxLength` once the
running length is within it. -/
theorem promptLoop_length (maxLength : Nat) :
    ∀ (l : List MemorySearchResult) (ctx : String) (curLen : Nat),
      ctx.length = curLen → curLen ≤ maxLength →
      (promptLoop maxLength l ctx curLen).length ≤ maxLength := by
  intro l
  induction l with
  | nil => intro ctx curLen hc hle; simpa [promptLoop, hc]
  | cons r rest ih =>
    intro ctx curLen hc hle
    unfold promptLoop
    split
    · simpa [hc]
    · rename_i hgt
      exact ih (ctx ++ promptBlock r) (curLen + (promptBlock r).length)
        (by simp [String.length_append, hc]) (by omega)

/-- A metadata object matching the search filter must carry `visibility`
`"team"` or `"public"`. -/
theorem buildWhere_matches_vis (sid : Option String) (env : Env)
    (m : VecMetadata) (h : matchesWhere (buildWhere sid env) m = true) :
    m.visibility = some "team" ∨ m.visibility = some "public" := by
  unfold matchesWhere buildWhere at h
  rcases (Bool.and_eq_true _ _).mp h with ⟨_, h2⟩
  revert h2
  cases hv : m.visibility with
  | none => intro h2; simp at h2
  | some v =>
    intro h2
    simp [List.contains] at h2
    rcases h2 with h2 | h2 <;> simp [h2]

/-- C1: every `where` filter the search operation sends while the vector
backend is available restricts `visibility` to `{team, public}`, so no
result whose stored visibility is `"private"` is ever produced by the
vector path, for any query, session scope or limit — provided the backend
honours the filter it was sent. -/
theorem c1_vector_search_excludes_private (md : String) (env : Env)
    (rc : RequestCtx) (fs : FS) (st : ManagerState) (rows : List QueryRow)
    (query : String) (sessionId : Option String) (limit : Nat)
    (hav : (st.client && st.collection) = true)
    (hresp : ∀ row ∈ rows,
      matchesWhere (buildWhere sessionId env) row.metadata = true) :
    ∀ r ∈ searchRelevantMemories md env rc fs st (.returns rows) query
        sessionId limit,
      r.metadata.vis ≠ some "private" := by
  intro r hr
  unfold searchRelevantMemories at hr
  rw [hav] at hr
  simp only [if_true] at hr
  by_cases he : rows.isEmpty
  · simp only [he, if_true] at hr
    rw [searchJsonMemories_vis_none md env rc fs query sessionId limit r hr]
    simp
  · simp only [he, if_false, Bool.false_eq_true] at hr
    rcases List.mem_map.mp hr with ⟨row, hrow, rfl⟩
    rcases buildWhere_matches_vis sessionId env row.metadata
        (hresp row hrow) with hv | hv <;>
      simp [mkVecResult, ResultMeta.vis, hv]

theorem c1_witness :
    (mkVecResult rowTeam).metadata.vis ≠ some "private" :=
  c1_vector_search_excludes_private "m" {} {} ⟨[], [], []⟩
    ⟨true, true, true⟩ [rowTeam] "nginx" none 5 (by decide)
    (by decide) (mkVecResult rowTeam) (by decide)

/-- C9: `ensureCollection` completes without raising exactly for the
create-collection statuses 200, 201 and 409 ("already exists" is success),
and raises for every other status. -/
theorem c9_ensure_collection_status (status : Nat) :
    exceptOk (ensureCollection status) =
      decide (status = 200 ∨ status = 201 ∨ status = 409) := by
  unfold ensureCollection
  split
  · rename_i h
    simp only [List.mem_cons, List.not_mem_nil, or_false] at h
    simp [exceptOk, h]
  · rename_i h
    simp only [List.mem_cons, List.not_mem_nil, or_false] at h
    simp [exceptOk, h]

/-- C10: a record re-indexed by `reloadAllMemoriesFromJson` carries no
`userId`, `teamId` or `visibility` metadata — unlike the same record
indexed by `storeConversation` — and consequently never satisfies the
`visibility ∈ {team, public}` filter every vector-path search applies. -/
theorem c10_reload_metadata_unfiltered (mem : ConversationMemory)
    (env : Env) (rc : RequestCtx) (sid : Option String) :
    (reloadMetadata mem).userId = none ∧
    (reloadMetadata mem).teamId = none ∧
    (reloadMetadata mem).visibility = none ∧
    matchesWhere (buildWhere sid env) (reloadMetadata mem) = false ∧
    (storeMetadata env rc mem).userId = some (resolveUserId env rc mem) ∧
    (storeMetadata env rc mem).teamId = some (resolveTeamId env rc mem) ∧
    (storeMetadata env rc mem).visibility = some (resolveVisibility mem) := by
  refine ⟨rfl, rfl, rfl, ?_, rfl, rfl, rfl⟩
  simp [matchesWhere, buildWhere, reloadMetadata]

/-- C4: whenever the vector backend is unavailable, throws, or returns zero
documents, the search returns exactly the scanned records of the active
user's session files whose lower-cased
`userMessage + " " + assistantResponse + " " + tags` text contains the
lower-cased query, mapped to result objects in scan order, truncated to the
limit — and every such fallback result has the fixed placeholder distance
0.5. -/
theorem c4_fallback_keyword_scan (md : String) (env : Env)
    (rc : RequestCtx) (fs : FS) (st : ManagerState) (beh : QueryBehavior)
    (query : String) (sessionId : Option String) (limit : Nat)
    (h : (st.client && st.collection) = false ∨ beh = .throws ∨
      beh = .returns []) :
    searchRelevantMemories md env rc fs st beh query sessionId limit =
      (((scannedRecords md env rc fs sessionId).filter
          (recordMatchesKeyword (lowerStr query))).map mkJsonResult).take
        limit ∧
    ∀ r ∈ searchRelevantMemories md env rc fs st beh query sessionId limit,
      r.distance = (1 : ℚ) / 2 := by
  have he :=
    searchRelevantMemories_fallback md env rc fs st beh query sessionId
      limit h
  constructor
  · rw [he, searchJsonMemories_eq_spec]
  · intro r hr
    rw [he] at hr
    exact searchJsonMemories_distance md env rc fs query sessionId limit r hr

theorem c4_witness :
    searchRelevantMemories "mem" envAlice {} fsDocker
        ⟨false, false, true⟩ .throws "docker" none 5 =
      (((scannedRecords "mem" envAlice {} fsDocker none).filter
          (recordMatchesKeyword (lowerStr "docker"))).map mkJsonResult).take
        5 :=
  (c4_fallback_keyword_scan "mem" envAlice {} fsDocker
    ⟨false, false, true⟩ .throws "docker" none 5 (Or.inl (by decide))).1

/-- C5 counterexample: with one available result and `maxLength = 10` the
builder still returns the fixed 50-character header, exceeding the
requested maximum — the claim as stated is false for small `maxLength`. -/
theorem c5_counterexample_header_exceeds :
    buildContextPrompt "m" {} {} ⟨[], [], []⟩ ⟨true, true, true⟩
        (.returns [rowTeam]) "q" none 10 = contextHeader ∧
      10 < contextHeader.length := by decide

/-- C5 (amended): provided `maxLength` is at least the 50-character fixed
header, the Context Prompt Builder's output never exceeds `maxLength` —
blocks are appended only while the next block still fits — and it returns
the empty string when the search yields no results. -/
theorem c5_prompt_length_bounded (md : String) (env : Env)
    (rc : RequestCtx) (fs : FS) (st : ManagerState) (beh : QueryBehavior)
    (currentMessage : String) (sessionId : Option String) (maxLength : Nat)
    (h : contextHeader.length ≤ maxLength) :
    (buildContextPrompt md env rc fs st beh currentMessage sessionId
        maxLength).length ≤ maxLength ∧
    (searchRelevantMemories md env rc fs st beh currentMessage sessionId 3
        = [] →
      buildContextPrompt md env rc fs st beh currentMessage sessionId
          maxLength = "") := by
  constructor
  · simp only [buildContextPrompt]
    split
    · simp
    · exact promptLoop_length maxLength _ contextHeader
        contextHeader.length rfl h
  · intro hs
    simp only [buildContextPrompt]
    rw [hs]
    rfl

theorem c5_witness :
    (buildContextPrompt "m" {} {} ⟨[], [], []⟩ ⟨true, true, true⟩
        (.returns [rowTeam]) "q" none 2000).length ≤ 2000 :=
  (c5_prompt_length_bounded "m" {} {} ⟨[], [], []⟩ ⟨true, true, true⟩
    (.returns [rowTeam]) "q" none 2000 (by decide)).1

/-- C3 counterexample: with JSON persistence enabled and the disk write
failing, the top-level store operation still returns `true` — it does not
report the write failure as `false` to its caller (the inner JSON append
does return `false`, but line 131 discards that result). -/
theorem c3_counterexample_store_true_on_failure :
    (storeConversationToJson "m" {} {}
        fsFailWrite (storedRecord {} {} recNginx)).1 = false ∧
    (storeConversation "m" {} {} ⟨false, false, true⟩ ⟨[], false⟩
        fsFailWrite recNginx).1 = true := by decide

/-- C3 (amended): the durable-append operation `storeConversationToJson`
reports a failing disk write as a boolean `false` to its caller rather
than raising, and returns `true` exactly when the durable write succeeded;
the top-level `storeConversation`, however, discards that flag and returns
`true` on every path. -/
theorem c3_write_failure_reporting (md : String) (env : Env)
    (rc : RequestCtx) (fs : FS) (mem : ConversationMemory) :
    ((storeConversationToJson md env rc fs mem).1 = true ↔
      jsonSessionPath md env rc mem ∉ fs.failWrites) ∧
    ∀ (st : ManagerState) (ch : ChromaState),
      (storeConversation md env rc st ch fs mem).1 = true := by
  constructor
  · simp only [storeConversationToJson, jsonSessionPath]
    split
    · rename_i hmem
      simpa using hmem
    · rename_i hmem
      simpa using hmem
  · intro st ch
    exact storeConversation_fst md env rc st ch fs mem

theorem c3_witness :
    (storeConversationToJson "m" {} {} ⟨[], [], []⟩ recNginx).1 = true :=
  ((c3_write_failure_reporting "m" {} {} ⟨[], [], []⟩ recNginx).1).mpr
    (by decide)

/-- C2: evaluation at the failing input.  Store a record for active user
`alice` (file lands at `mem/alice/s1.json`), then call
`deleteSession("s1")`: it unlinks `mem/s1.json` — directly under the
memory root, not under the user directory — so the unlink throws
(`false`) and `listSessions()` still returns `"s1"`, contradicting the
claim and the spec's scenario. -/
theorem c2_delete_session_ineffective :
    (deleteSession "mem"
        (storeConversationToJson "mem" envAlice {} ⟨[], [], []⟩
          recDocker).2 "s1").1 = false ∧
    listSessions "mem" envAlice {}
        (deleteSession "mem"
          (storeConversationToJson "mem" envAlice {} ⟨[], [], []⟩
            recDocker).2 "s1").2 = ["s1"] := by decide

/-- A truthy chain value is never the empty string. -/
theorem jsTruthy_ne_empty (x : Option String) (s : String)
    (h : jsTruthy x = some s) : s ≠ "" := by
  cases x with
  | none => simp [jsTruthy] at h
  | some t =>
    by_cases ht : t = ""
    · simp [jsTruthy, ht] at h
    · simp [jsTruthy, ht] at h
      subst h
      exact ht

/-- A `||` chain ending in a non-empty default is never empty. -/
theorem jsChain_ne_empty (xs : List (Option String)) (d : String)
    (hd : d ≠ "") : jsChain xs d ≠ "" := by
  induction xs with
  | nil => simpa [jsChain]
  | cons x rest ih =>
    unfold jsChain
    cases hx : jsTruthy x with
    | none => simpa using ih
    | some s => simpa using jsTruthy_ne_empty x s hx

/-- The directory segment the JSON store derives for the record
`storeConversation` persists is exactly the sanitised resolved user id. -/
theorem jsonUserSafe_storedRecord (env : Env) (rc : RequestCtx)
    (mem : ConversationMemory) :
    jsonUserSafe env rc (storedRecord env rc mem) =
      sanitize (resolveUserId env rc mem) := by
  have h : resolveUserId env rc mem ≠ "" := by
    unfold resolveUserId
    exact jsChain_ne_empty _ _ (by decide)
  unfold jsonUserSafe storedRecord
  simp [jsChain, jsTruthy, h]

/-- C6: at write time the effective `userId`/`teamId` follow the precedence
Request Scope Context, then environment default, then the value on the
record, then the literal sentinel (`'unknown-user'` / `'default-team'`),
and this resolution determines the per-user directory the record is
appended to: the store path writes through
`<memoryDir>/<sanitize(resolvedUserId)>/<sessionId>.json`. -/
theorem c6_ownership_resolution (env : Env) (rc : RequestCtx)
    (mem : ConversationMemory) :
    (∀ u, jsTruthy rc.userId = some u → resolveUserId env rc mem = u) ∧
    (jsTruthy rc.userId = none →
      ∀ u, jsTruthy env.mcpUserId = some u → resolveUserId env rc mem = u) ∧
    (jsTruthy rc.userId = none → jsTruthy env.mcpUserId = none →
      ∀ u, jsTruthy mem.userId = some u → resolveUserId env rc mem = u) ∧
    (jsTruthy rc.userId = none → jsTruthy env.mcpUserId = none →
      jsTruthy mem.userId = none →
      resolveUserId env rc mem = "unknown-user") ∧
    (∀ t, jsTruthy rc.teamId = some t → resolveTeamId env rc mem = t) ∧
    (jsTruthy rc.teamId = none →
      ∀ t, jsTruthy env.mcpTeamId = some t → resolveTeamId env rc mem = t) ∧
    (jsTruthy rc.teamId = none → jsTruthy env.mcpTeamId = none →
      ∀ t, jsTruthy mem.teamId = some t → resolveTeamId env rc mem = t) ∧
    (jsTruthy rc.teamId = none → jsTruthy env.mcpTeamId = none →
      jsTruthy mem.teamId = none →
      resolveTeamId env rc mem = "default-team") ∧
    (∀ md, jsonSessionPath md env rc (storedRecord env rc mem) =
      pjoin (pjoin md (sanitize (resolveUserId env rc mem)))
        (mem.sessionId ++ ".json")) ∧
    (∀ md st ch fs, disableJson env = false →
      (storeConversation md env rc st ch fs mem).2.1 =
        (storeConversationToJson md env rc fs
          (storedRecord env rc mem)).2) := by
  refine ⟨?_, ?_, ?_, ?_, ?_, ?_, ?_, ?_, ?_, ?_⟩
  · intro u hu
    simp [resolveUserId, jsChain, hu]
  · intro h1 u hu
    simp [resolveUserId, jsChain, h1, hu]
  · intro h1 h2 u hu
    simp [resolveUserId, jsChain, h1, h2, hu]
  · intro h1 h2 h3
    simp [resolveUserId, jsChain, h1, h2, h3]
  · intro t ht
    simp [resolveTeamId, jsChain, ht]
  · intro h1 t ht
    simp [resolveTeamId, jsChain, h1, ht]
  · intro h1 h2 t ht
    simp [resolveTeamId, jsChain, h1, h2, ht]
  · intro h1 h2 h3
    simp [resolveTeamId, jsChain, h1, h2, h3]
  · intro md
    unfold jsonSessionPath
    rw [jsonUserSafe_storedRecord]
    rfl
  · intro md st ch fs hdj
    simp only [storeConversation, storedRecord, hdj]
    split
    · rfl
    · split <;> rfl

theorem c6_witness :
    resolveUserId envAlice { userId := some "bob" } recDocker = "bob" :=
  (c6_ownership_resolution envAlice { userId := some "bob" }
    recDocker).1 "bob" (by decide)

/-- C7: appending a valid record and then scanning the same session (same
active scope: the append's sanitised owner segment equals the read path's
owner segment) yields every previously readable record, in their original
order, followed by the new record — a missing or corrupt prior file reads
as the empty sequence and never fails the write. -/
theorem c7_append_then_scan (md : String) (env : Env) (rc : RequestCtx)
    (fs : FS) (mem : ConversationMemory)
    (huser : jsonUserSafe env rc mem = readUserId env rc)
    (hw : jsonSessionPath md env rc mem ∉ fs.failWrites)
    (hsid : mem.sessionId ≠ "") :
    (storeConversationToJson md env rc fs mem).1 = true ∧
    scannedRecords md env rc (storeConversationToJson md env rc fs mem).2
        (some mem.sessionId) =
      readableRecords fs (jsonSessionPath md env rc mem) ++ [mem] := by
  simp only [storeConversationToJson, jsonSessionPath] at *
  rw [if_neg hw]
  refine ⟨rfl, ?_⟩
  set userDir := pjoin md (jsonUserSafe env rc mem) with hud
  set name := mem.sessionId ++ ".json" with hname
  set fs1 := fs.mkdirp userDir with hfs1
  set data : FileData :=
    .records (readableRecords fs1 (pjoin userDir name) ++ [mem]) with hdata
  obtain ⟨entries, hentries⟩ := writeAt_dir_exists fs1 userDir name data
  unfold scannedRecords sessionFilesList
  rw [← huser, ← hud]
  dsimp only
  rw [hentries]
  have hjt : jsTruthy (some mem.sessionId) = some mem.sessionId := by
    simp [jsTruthy, hsid]
  rw [hjt]
  dsimp only
  rw [← hname]
  have hends : endsWithStr name ".json" = true := endsWithStr_append _ _
  simp only [List.flatMap_cons, List.flatMap_nil, hends, if_true,
    List.append_nil]
  have hrr : readableRecords (fs1.writeAt userDir name data)
      (pjoin userDir name) =
      readableRecords fs1 (pjoin userDir name) ++ [mem] := by
    unfold readableRecords
    rw [writeAt_read, hdata]
    rfl
  rw [hrr, hfs1, readableRecords_mkdirp]

theorem c7_witness :
    (storeConversationToJson "mem" envAlice {} ⟨[], [], []⟩ recDocker).1 =
        true ∧
    scannedRecords "mem" envAlice {}
        (storeConversationToJson "mem" envAlice {} ⟨[], [], []⟩
          recDocker).2 (some recDocker.sessionId) =
      readableRecords ⟨[], [], []⟩
          (jsonSessionPath "mem" envAlice {} recDocker) ++ [recDocker] :=
  c7_append_then_scan "mem" envAlice {} ⟨[], [], []⟩ recDocker
    (by decide) (by decide) (by decide)

/-- C8: when the vector client cannot be constructed, or neither getting
nor creating the collection succeeds, `initialize()` completes without
raising, leaving the system in JSON-only degraded mode (`client` and
`collection` cleared, `initialized` set); every subsequent store returns
`true` and leaves the vector collection untouched, and every subsequent
search runs the JSON path. -/
theorem c8_init_degrades_to_json (o : InitOutcome)
    (h : o.clientOk = false ∨
      (o.getCollectionOk = false ∧ o.createCollectionOk = false)) :
    initializeManager o =
      { client := false, collection := false, initDone := true } ∧
    (∀ (md : String) (env : Env) (rc : RequestCtx) (ch : ChromaState)
        (fs : FS) (mem : ConversationMemory),
      (storeConversation md env rc (initializeManager o) ch fs mem).1 =
          true ∧
      (storeConversation md env rc (initializeManager o) ch fs mem).2.2 =
          ch) ∧
    (∀ (md : String) (env : Env) (rc : RequestCtx) (fs : FS)
        (beh : QueryBehavior) (query : String) (sessionId : Option String)
        (limit : Nat),
      searchRelevantMemories md env rc fs (initializeManager o) beh query
          sessionId limit =
        searchJsonMemories md env rc fs query sessionId limit) := by
  have hst : initializeManager o =
      { client := false, collection := false, initDone := true } := by
    unfold initializeManager
    rcases h with h | ⟨h1, h2⟩ <;>
      cases hm : o.mkdirOk <;> cases hc : o.clientOk <;>
        simp_all
  refine ⟨hst, ?_, ?_⟩
  · intro md env rc ch fs mem
    refine ⟨storeConversation_fst md env rc _ ch fs mem, ?_⟩
    rw [hst]
    simp only [storeConversation]
    split
    · rfl
    · rfl
  · intro md env rc fs beh query sessionId limit
    rw [hst]
    exact searchRelevantMemories_fallback md env rc fs _ beh query
      sessionId limit (Or.inl rfl)

theorem c8_witness :
    initializeManager ⟨false, true, true, true⟩ =
      { client := false, collection := false, initDone := true } ∧
    (storeConversation "m" {} {}
        (initializeManager ⟨false, true, true, true⟩) ⟨[], false⟩
        ⟨[], [], []⟩ recDocker).1 = true ∧
    searchRelevantMemories "m" {} {} ⟨[], [], []⟩
        (initializeManager ⟨false, true, true, true⟩) .throws "q" none 5 =
      searchJsonMemories "m" {} {} ⟨[], [], []⟩ "q" none 5 :=
  ⟨(c8_init_degrades_to_json ⟨false, true, true, true⟩ (Or.inl rfl)).1,
   ((c8_init_degrades_to_json ⟨false, true, true, true⟩
      (Or.inl rfl)).2.1 "m" {} {} ⟨[], false⟩ ⟨[], [], []⟩ recDocker).1,
   (c8_init_degrades_to_json ⟨false, true, true, true⟩
      (Or.inl rfl)).2.2 "m" {} {} ⟨[], [], []⟩ .throws "q" none 5⟩

end MCP
